import Mathlib

/-!
Shallow embedding of the encoding-parameter and composition-planning layer of
the video-splitter repository.

Conventions of the embedding:
* Go `int`/`int64` dimension, size and bitrate values are modelled as `Nat`
  where the source only ever holds non-negative values, and as `Int` where a
  Go expression can go negative (pad offsets); Go integer division on
  non-negative operands is `Nat` division, and on possibly-negative operands
  it is `Int.tdiv` (truncation toward zero, as in Go).
* Go `float64` arithmetic is modelled by exact rational arithmetic (`ℚ`);
  a Go `int(...)` conversion of a non-negative float is modelled by
  `Int.toNat ∘ Int.floor` (truncation toward zero).
-/

namespace VideoSplitter

/-! ## Constants from `internal/config/config.go` / `pkg/videoprocessor` -/

def OutputWidth : Nat := 1280
def OutputHeight : Nat := 720

def Template1x1Width : Nat := OutputWidth
def Template1x1Height : Nat := OutputHeight
def Template2x2Width : Nat := OutputWidth / 2
def Template2x2Height : Nat := OutputHeight / 2
def Template3x1Width : Nat := OutputWidth / 3
def Template3x1Height : Nat := OutputHeight

def Template1x1MaxSize : Nat := 30 * 1024 * 1024
def Template2x2MaxSize : Nat := 8 * 1024 * 1024
def Template3x1MaxSize : Nat := 10 * 1024 * 1024
def MaxTotalFileSize : Nat := 50 * 1024 * 1024

def MinCRF : Nat := 18
def MaxCRF : Nat := 28

/-! ## Size-constrained encode loop, from `optimizeVideo` in
`pkg/videoprocessor/videoprocessor.go` (lines 581-642).

The external encoder is abstracted as a function `size : Nat → Nat` giving the
output file size produced by an encode at a given CRF.  The Go loop is

    currentCRF := MinCRF
    for attempts := 0; attempts < 3; attempts++ {
      ... encode at currentCRF ...
      if fileInfo.Size() <= params.TargetFilesize || currentCRF >= MaxCRF { break }
      currentCRF += 5
      if currentCRF > MaxCRF { currentCRF = MaxCRF }
    }
    return nil
-/

def attemptCRFs (size : Nat → Nat) (target : Nat) : Nat → Nat → List Nat
  | 0, _ => []
  | fuel + 1, crf =>
    crf :: (if size crf ≤ target ∨ MaxCRF ≤ crf then []
            else attemptCRFs size target fuel (min (crf + 5) MaxCRF))

/-- The sequence of CRF values at which `optimizeVideo` invokes the encoder. -/
def optimizeVideoCRFs (size : Nat → Nat) (target : Nat) : List Nat :=
  attemptCRFs size target 3 MinCRF

/-- The file the loop leaves behind is the one from the last encode attempt;
the Go function returns `nil` (success) regardless of whether that file meets
the target size. -/
def optimizeVideoResult (size : Nat → Nat) (target : Nat) : Option Nat :=
  (optimizeVideoCRFs size target).getLast?.map size

/-! ## Template input-count validation, from `Templater.Process` in
`internal/processor/template.go` (lines 19-77). -/

inductive TemplateOutcome where
  | noInputs
  | invalidCount (required got : Nat)
  | unsupportedType
  | accepted (usedInputs : Nat) (warned : Bool)
  deriving DecidableEq, Repr

/-- The input-count handling of `Templater.Process`: `n` is
`len(t.opts.InputPaths)`.  Excess inputs are truncated with a log warning;
insufficient inputs are a hard error
(`"2x2 template requires exactly 4 videos, got %d"`). -/
def templaterValidateInputs (ttype : String) (n : Nat) : TemplateOutcome :=
  if n = 0 then .noInputs
  else if ttype = "1x1" then
    if 1 < n then .accepted 1 true else .accepted n false
  else if ttype = "2x2" then
    if 4 < n then .accepted 4 true
    else if n < 4 then .invalidCount 4 n
    else .accepted 4 false
  else if ttype = "3x1" then
    if 3 < n then .accepted 3 true
    else if n < 3 then .invalidCount 3 n
    else .accepted 3 false
  else .unsupportedType

/-! ## Final total-size handling.

Two implementations exist in the repository:

* `Templater.Process` in `internal/processor/template.go` (lines 248-256)
  stats the final artifact and fails immediately when the size exceeds
  `MaxTotalFileSize`; no re-encode pass exists on this path.
* `ApplyTemplate` in `pkg/videoprocessor/videoprocessor.go` (lines 500-535)
  re-encodes the composed artifact once (video at `MinCRF + 5`, audio stream
  copied) when the size exceeds `MaxTotalFileSize`, renames the result into
  place, and returns success without statting the re-encoded file again.
-/

/-! ## Dimension fitting -/

structure VideoDimensions where
  width : Nat
  height : Nat
  deriving DecidableEq, Repr

/-- Go `int(...)` conversion of a `float64` value, for the non-negative values
arising in dimension computation (truncation toward zero; negative rationals,
which never occur at the call sites, are clamped to 0 by `Int.toNat`). -/
def goNat (q : ℚ) : Nat := (Int.floor q).toNat

/-- Model of `ensureValidDimensions` from `pkg/videoprocessor/videoprocessor.go`
(lines 713-735): decrement odd dimensions, then floor both at 2. -/
def ensureValidDimensions (dims : VideoDimensions) : VideoDimensions :=
  let width := if dims.width % 2 ≠ 0 then dims.width - 1 else dims.width
  let height := if dims.height % 2 ≠ 0 then dims.height - 1 else dims.height
  ⟨if width < 2 then 2 else width, if height < 2 then 2 else height⟩

/-- Model of `calculateOptimalDimensions` from `pkg/videoprocessor/videoprocessor.go`
(lines 685-711): aspect-ratio fit into the target box, decrement the derived
dimension when odd, then `ensureValidDimensions`. -/
def calculateOptimalDimensions (srcWidth srcHeight : Nat) (targetDims : VideoDimensions) :
    VideoDimensions :=
  let srcAspect : ℚ := (srcWidth : ℚ) / (srcHeight : ℚ)
  let targetAspect : ℚ := (targetDims.width : ℚ) / (targetDims.height : ℚ)
  let d : VideoDimensions :=
    if targetAspect < srcAspect then
      let optimalHeight := goNat ((targetDims.width : ℚ) / srcAspect)
      ⟨targetDims.width, if optimalHeight % 2 ≠ 0 then optimalHeight - 1 else optimalHeight⟩
    else
      let optimalWidth := goNat ((targetDims.height : ℚ) * srcAspect)
      ⟨if optimalWidth % 2 ≠ 0 then optimalWidth - 1 else optimalWidth, targetDims.height⟩
  ensureValidDimensions d

/-- The orientation swap shared by `Processor.calculateOptimalDimensions`,
`processNormalVideo` and `OptimizeVideo`: when the source and target
orientations differ, swap the target box dimensions. -/
def orientedBox (srcWidth srcHeight maxWidth maxHeight : Nat) : Nat × Nat :=
  let srcIsPortrait : Bool := srcWidth < srcHeight
  let targetIsPortrait : Bool := maxWidth < maxHeight
  if srcIsPortrait = targetIsPortrait then (maxWidth, maxHeight)
  else (maxHeight, maxWidth)

/-- Model of `scaleFactor := math.Min(widthRatio, heightRatio)` in
`Processor.calculateOptimalDimensions`. -/
def processorScaleFactor (srcWidth srcHeight : Nat) (targetDims : VideoDimensions) : ℚ :=
  let box := orientedBox srcWidth srcHeight targetDims.width targetDims.height
  min ((box.1 : ℚ) / (srcWidth : ℚ)) ((box.2 : ℚ) / (srcHeight : ℚ))

/-- The even-adjusted scaled dimensions of
`Processor.calculateOptimalDimensions` (lines 485-490). -/
def processorScaled (srcWidth srcHeight : Nat) (targetDims : VideoDimensions) : Nat × Nat :=
  let ow0 := goNat ((srcWidth : ℚ) * processorScaleFactor srcWidth srcHeight targetDims)
  let oh0 := goNat ((srcHeight : ℚ) * processorScaleFactor srcWidth srcHeight targetDims)
  (ow0 - ow0 % 2, oh0 - oh0 % 2)

/-- Model of `Processor.calculateOptimalDimensions` from `internal/ffmpeg/ffmpeg.go`
(lines 460-508): orientation-aware swap of the target box, scale by the
smaller ratio, decrement odd dimensions, then two clamp checks against the
larger target side.  There is no floor at 2. -/
def processorCalculateOptimalDimensions (srcWidth srcHeight : Nat)
    (targetDims : VideoDimensions) : VideoDimensions :=
  let s := processorScaled srcWidth srcHeight targetDims
  let mx : ℚ := max (targetDims.width : ℚ) (targetDims.height : ℚ)
  let d2 : Nat × Nat :=
    if mx < (s.1 : ℚ) then
      let w := goNat mx
      let h := goNat ((w : ℚ) * (srcHeight : ℚ) / (srcWidth : ℚ))
      (w, h - h % 2)
    else s
  let d3 : Nat × Nat :=
    if mx < (d2.2 : ℚ) then
      let h := goNat mx
      let w := goNat ((h : ℚ) * (srcWidth : ℚ) / (srcHeight : ℚ))
      (w - w % 2, h)
    else d2
  ⟨d3.1, d3.2⟩

/-- The scale/pad plan computed by `Processor.processNormalVideo` in
`internal/ffmpeg/ffmpeg.go` (lines 307-378); `Processor.OptimizeVideo`
(lines 619-699) computes the same dimensions.  `boxWidth`/`boxHeight` are the
platform box after the orientation swap; the emitted filter pads to that box
whenever the even-adjusted scale dimensions do not match it exactly. -/
structure NormalPlan where
  scaleWidth : Nat
  scaleHeight : Nat
  boxWidth : Nat
  boxHeight : Nat
  padded : Bool
  deriving DecidableEq, Repr

def processNormalDims (w h maxWidth maxHeight : Nat) : NormalPlan :=
  let box := orientedBox w h maxWidth maxHeight
  let srcAspect : ℚ := (w : ℚ) / (h : ℚ)
  let targetAspect : ℚ := (box.1 : ℚ) / (box.2 : ℚ)
  let s : Nat × Nat :=
    if targetAspect < srcAspect then (box.1, goNat ((box.1 : ℚ) / srcAspect))
    else (goNat ((box.2 : ℚ) * srcAspect), box.2)
  let sW := s.1 - s.1 % 2
  let sH := s.2 - s.2 % 2
  ⟨sW, sH, box.1, box.2, ¬(sW = box.1 ∧ sH = box.2)⟩

/-- Frame dimensions of the file emitted by `processNormalVideo`: the pad
filter's output is the (possibly swapped) box; without padding the scale
dimensions equal the box. -/
def NormalPlan.frame (p : NormalPlan) : Nat × Nat :=
  if p.padded then (p.boxWidth, p.boxHeight) else (p.scaleWidth, p.scaleHeight)

/-- Model of `Processor.ProcessForPlatform` from `internal/ffmpeg/ffmpeg.go`
(lines 192-305).  For `forcePortrait` platforms and landscape sources it
builds `crop=cropWidth:h:cropX:0,scale=maxWidth:maxHeight` (no pad filter);
otherwise it falls through to `processNormalVideo`. -/
inductive PlatformPlan where
  | cropPlan (cropWidth cropHeight cropX scaleWidth scaleHeight : Nat)
  | normalPlan (p : NormalPlan)
  deriving DecidableEq, Repr

def processForPlatform (forcePortrait : Bool) (w h maxWidth maxHeight : Nat) : PlatformPlan :=
  if forcePortrait ∧ h < w then
    let cropWidth := (h * 9) / 16
    let cropX := (w - cropWidth) / 2
    .cropPlan cropWidth h cropX maxWidth maxHeight
  else .normalPlan (processNormalDims w h maxWidth maxHeight)

/-- Frame dimensions of the file emitted by `ProcessForPlatform`. -/
def PlatformPlan.frame : PlatformPlan → Nat × Nat
  | .cropPlan _ _ _ sw sh => (sw, sh)
  | .normalPlan p => p.frame

/-- Pad offsets computed by `optimizeVideo` in
`pkg/videoprocessor/videoprocessor.go` (lines 590-593); Go integer division
truncates toward zero, hence `Int.tdiv`. -/
def optimizeVideoPads (targetW targetH optW optH : Nat) : Int × Int × Int × Int :=
  let padTop := Int.tdiv ((targetH : Int) - (optH : Int)) 2
  let padBottom := (targetH : Int) - (optH : Int) - padTop
  let padLeft := Int.tdiv ((targetW : Int) - (optW : Int)) 2
  let padRight := (targetW : Int) - (optW : Int) - padLeft
  (padTop, padBottom, padLeft, padRight)

/-- Whether `optimizeVideo` adds a pad filter (lines 595-601). -/
def optimizeVideoPadded (targetW targetH optW optH : Nat) : Bool :=
  let p := optimizeVideoPads targetW targetH optW optH
  0 < p.1 ∨ 0 < p.2.1 ∨ 0 < p.2.2.1 ∨ 0 < p.2.2.2

/-- Frame dimensions of the file emitted by `optimizeVideo`: the pad filter's
output size is exactly `params.Width`×`params.Height`. -/
def optimizeVideoFrame (targetW targetH optW optH : Nat) : Nat × Nat :=
  if optimizeVideoPadded targetW targetH optW optH then (targetW, targetH)
  else (optW, optH)

/-- CRF used by the one tightening re-encode in `ApplyTemplate`
(`adjustedCRF := MinCRF + 5`). -/
def adjustedCRF : Nat := MinCRF + 5

/-- Outcome of the final composed artifact's size handling. -/
inductive FinalizeOutcome where
  | failed
  | emitted (size : Nat) (tightened : Bool)
  deriving DecidableEq, Repr

/-- Final size check of `Templater.Process`: fail iff the artifact exceeds
`MaxTotalFileSize`; no tightening re-encode. -/
def templaterFinalize (finalSize : Nat) : FinalizeOutcome :=
  if MaxTotalFileSize < finalSize then .failed else .emitted finalSize false

/-- Final size handling of `ApplyTemplate`: `finalSize` is the size of the
composed artifact, `reencodedSize` the size produced by the tightening
re-encode at `adjustedCRF`.  The re-encoded file replaces the output and the
function returns success without re-checking its size. -/
def applyTemplateFinalize (finalSize reencodedSize : Nat) : FinalizeOutcome :=
  if MaxTotalFileSize < finalSize then .emitted reencodedSize true
  else .emitted finalSize false

/-! ## Bitrate handling, from `internal/ffmpeg/ffmpeg.go` -/

/-- Membership in the cutset `"Mk"` of `strings.TrimRight(bitrate, "Mk")`. -/
def isMkChar (c : Char) : Bool := c = 'M' ∨ c = 'k'

/-- Model of `strings.TrimRight(s, "Mk")`: remove all trailing characters drawn
from the cutset. -/
def trimRightMk (s : List Char) : List Char :=
  (s.reverse.dropWhile isMkChar).reverse

def isDigitChar (c : Char) : Bool := '0' ≤ c ∧ c ≤ '9'

/-- Value of a non-empty all-digit character run. -/
def digitsVal (s : List Char) : Option Nat :=
  if s ≠ [] ∧ s.all isDigitChar then
    some (s.foldl (fun a c => 10 * a + (c.toNat - '0'.toNat)) 0)
  else none

/-- Model of `strconv.Atoi`: an optional sign followed by one or more digits; anything
else is an error (`none`).  Overflow is not modelled. -/
def goAtoi (s : List Char) : Option Int :=
  match s with
  | [] => none
  | c :: rest =>
    if c = '+' then (digitsVal rest).map (fun n => (n : Int))
    else if c = '-' then (digitsVal rest).map (fun n => -(n : Int))
    else (digitsVal (c :: rest)).map (fun n => (n : Int))

/-- Model of `extractBitrateValue` from `internal/ffmpeg/ffmpeg.go` (lines 516-531):
trim the `M`/`k` suffix, parse; on parse failure return the default 2; an `M`
suffix keeps the number, a `k` suffix divides it by 1024 with Go integer
division. -/
def extractBitrateValue (bitrate : List Char) : Int :=
  match goAtoi (trimRightMk bitrate) with
  | none => 2
  | some number =>
    if bitrate.getLast? = some 'M' then number
    else if bitrate.getLast? = some 'k' then Int.tdiv number 1024
    else number

/-- The platform-driven target bitrate of `processNormalVideo` /
`ProcessForPlatform` / `OptimizeVideo`:
`extractBitrateValue(plat.GetVideoBitrate()) * 1000000`. -/
def platformTargetBitrate (bitrate : List Char) : Int :=
  extractBitrateValue bitrate * 1000000

/-- The source-bitrate cap applied in `processNormalVideo` (lines 347-357),
`ProcessForPlatform` (lines 234-244) and `OptimizeVideo` (lines 668-678):
when a source bitrate was probed (`inputBitrate > 0`), clamp the target at
`int64(float64(inputBitrate) * 1.05)`, modelled exactly as
`⌊21 * inputBitrate / 20⌋`. -/
def capTargetBitrate (platformBitrate : Int) (inputBitrate : Nat) : Int :=
  if 0 < inputBitrate then
    let maxBitrate : Int := ((21 * inputBitrate) / 20 : Nat)
    if maxBitrate < platformBitrate then maxBitrate else platformBitrate
  else platformBitrate

/-! ## Splitter chunk plans.

Both splitter implementations compute
`numChunks = int(duration)/chunkDuration`, plus one when the division has a
remainder, after rejecting a skip offset that consumes the whole duration.
They differ in how the per-chunk duration bound is passed to the engine:

* `SplitVideo` in `pkg/videoprocessor/videoprocessor.go` (lines 221-292) and
  the legacy `splitVideo` set `t = chunkDuration` only when `i < numChunks-1`,
  leaving the final chunk open-ended;
* `Splitter.Process` in `internal/processor/split.go` (lines 86-120) passes
  `s.opts.ChunkDuration` for every chunk to `ProcessForPlatform`, which sets
  `t` whenever that duration is positive — including on the final chunk.
-/

structure ChunkSpec where
  start : ℚ
  tBound : Option Nat
  deriving DecidableEq, Repr

def splitNumChunks (durationInt chunkDuration : Nat) : Nat :=
  durationInt / chunkDuration + (if durationInt % chunkDuration ≠ 0 then 1 else 0)

/-- Chunk plan of `SplitVideo` (`pkg/videoprocessor/videoprocessor.go`). -/
def splitVideoChunks (videoDuration skip : ℚ) (chunkDuration : Nat) :
    Except String (List ChunkSpec) :=
  let duration := videoDuration - skip
  if duration ≤ 0 then .error "skip duration exceeds video duration"
  else
    let n := splitNumChunks (goNat duration) chunkDuration
    .ok ((List.range n).map fun i =>
      ⟨(i * chunkDuration : ℕ) + skip, if i < n - 1 then some chunkDuration else none⟩)

/-- Chunk plan of `Splitter.Process` (`internal/processor/split.go`) combined
with `ProcessForPlatform`'s input arguments. -/
def splitterChunks (videoDuration skip : ℚ) (chunkDuration : Nat) :
    Except String (List ChunkSpec) :=
  let duration := videoDuration - skip
  if duration ≤ 0 then .error "skip duration exceeds video duration"
  else
    let n := splitNumChunks (goNat duration) chunkDuration
    .ok ((List.range n).map fun i =>
      ⟨(i * chunkDuration : ℕ) + skip, if 0 < chunkDuration then some chunkDuration else none⟩)


/-! ## Helper lemmas -/

theorem optimizeVideoCRFs_eq (size : Nat → Nat) (target : Nat) :
    optimizeVideoCRFs size target =
      if size 18 ≤ target then [18]
      else if size 23 ≤ target then [18, 23]
      else [18, 23, 28] := by
  have h0 : optimizeVideoCRFs size target
      = 18 :: (if size 18 ≤ target ∨ MaxCRF ≤ 18 then []
          else 23 :: (if size 23 ≤ target ∨ MaxCRF ≤ 23 then []
              else 28 :: (if size 28 ≤ target ∨ MaxCRF ≤ 28 then [] else []))) := rfl
  rw [h0]
  by_cases c1 : size 18 ≤ target <;> by_cases c2 : size 23 ≤ target <;>
    simp [MaxCRF, c1, c2]

/-- Claim C1: the size-constrained encode loop performs at most 3 encode
attempts; the CRF starts at 18, increases by 5 per retry, is non-decreasing,
never exceeds 28, and the loop accepts the result of the last attempt even
when its size is still over the ceiling. -/
theorem optimizeVideo_encode_loop_spec (size : Nat → Nat) (target : Nat) :
    (optimizeVideoCRFs size target).length ≤ 3 ∧
    (optimizeVideoCRFs size target).head? = some MinCRF ∧
    List.Chain' (fun a b => b = a + 5) (optimizeVideoCRFs size target) ∧
    (∀ c ∈ optimizeVideoCRFs size target, MinCRF ≤ c ∧ c ≤ MaxCRF) ∧
    optimizeVideoResult size target
      = some (size ((optimizeVideoCRFs size target).getLastD 0)) := by
  unfold optimizeVideoResult
  rw [optimizeVideoCRFs_eq]
  split_ifs <;>
    exact ⟨by decide, by decide, by simp [List.chain'_cons], by decide, rfl⟩

theorem optimizeVideo_encode_loop_spec_witness :
    (optimizeVideoCRFs (fun _ => 100) 50).length ≤ 3 ∧
    18 ∈ optimizeVideoCRFs (fun _ => 100) 50 ∧
    MinCRF ≤ 18 ∧ 18 ≤ MaxCRF :=
  ⟨(optimizeVideo_encode_loop_spec (fun _ => 100) 50).1, by decide,
    (optimizeVideo_encode_loop_spec (fun _ => 100) 50).2.2.2.1 18 (by decide)⟩

/-- Claim C6: whenever a source bitrate is probed (positive), the planned
target bitrate never exceeds 105 percent of the source bitrate, whatever the
platform-preferred bitrate is. -/
theorem capTargetBitrate_le_source (platformBitrate : Int) (inputBitrate : Nat)
    (h : 0 < inputBitrate) :
    capTargetBitrate platformBitrate inputBitrate * 20 ≤ 21 * (inputBitrate : Int) := by
  unfold capTargetBitrate
  rw [if_pos h]
  dsimp only
  have hdiv : ((21 * inputBitrate / 20 : Nat) : Int) * 20 ≤ 21 * (inputBitrate : Int) := by
    exact_mod_cast Nat.div_mul_le_self (21 * inputBitrate) 20
  split_ifs with hcap
  · exact hdiv
  · push_neg at hcap
    calc platformBitrate * 20
        ≤ ((21 * inputBitrate / 20 : Nat) : Int) * 20 :=
          mul_le_mul_of_nonneg_right hcap (by norm_num)
      _ ≤ 21 * (inputBitrate : Int) := hdiv

theorem capTargetBitrate_le_source_witness :
    0 < 1000000 ∧ capTargetBitrate 2000000 1000000 * 20 ≤ 21 * (1000000 : Int) :=
  ⟨by decide, capTargetBitrate_le_source 2000000 1000000 (by decide)⟩

/-- Claim C10: a skip offset consuming the entire probed duration makes both
splitters fail with the skip-exceeds-duration error before any chunk is
planned. -/
theorem split_skip_exceeds_duration (videoDuration skip : ℚ) (chunkDuration : Nat)
    (h : videoDuration - skip ≤ 0) :
    splitVideoChunks videoDuration skip chunkDuration
        = .error "skip duration exceeds video duration" ∧
    splitterChunks videoDuration skip chunkDuration
        = .error "skip duration exceeds video duration" := by
  unfold splitVideoChunks splitterChunks
  rw [if_pos h, if_pos h]
  exact ⟨rfl, rfl⟩

theorem split_skip_exceeds_duration_witness :
    (10 : ℚ) - 15 ≤ 0 ∧
    splitVideoChunks 10 15 5 = .error "skip duration exceeds video duration" := by
  have h : (10 : ℚ) - 15 ≤ 0 := by norm_num
  exact ⟨h, (split_skip_exceeds_duration 10 15 5 h).1⟩

/-- Claim C7 counterexample: a 2x2 request with 5 inputs is not rejected; it
is accepted with the inputs truncated to 4 and a warning. -/
theorem template2x2_five_inputs_accepted :
    templaterValidateInputs "2x2" 5 = .accepted 4 true := by decide

/-- Claim C7 (amended): a 2x2 request with 3 inputs is rejected with an
invalid-input-count error, with 5 inputs it is truncated to 4 with a warning,
with exactly 4 it is accepted, and a 1x1 request with 2 inputs is truncated
to 1 with a warning. -/
theorem templater_input_count_spec :
    templaterValidateInputs "2x2" 3 = .invalidCount 4 3 ∧
    templaterValidateInputs "2x2" 5 = .accepted 4 true ∧
    templaterValidateInputs "2x2" 4 = .accepted 4 false ∧
    templaterValidateInputs "1x1" 2 = .accepted 1 true := by decide

/-- Claim C2 counterexample: when the composed artifact and its tightening
re-encode both exceed the 50MB ceiling, `ApplyTemplate` still emits the
oversized artifact instead of failing, while `Templater.Process` fails
without ever applying a tightening pass. -/
theorem applyTemplate_oversized_after_tightening_emitted :
    applyTemplateFinalize (MaxTotalFileSize + 1) (MaxTotalFileSize + 1)
      = .emitted (MaxTotalFileSize + 1) true ∧
    templaterFinalize (MaxTotalFileSize + 1) = .failed := by decide

/-- Claim C2 (amended): when the composed artifact exceeds the 50MB ceiling,
`ApplyTemplate` applies exactly one tightening re-encode at CRF 23 and emits
its result without re-checking the size, while `Templater.Process` fails
immediately with a too-large error and has no tightening pass; artifacts at
or under the ceiling are emitted unchanged by both. -/
theorem template_final_size_spec (s r : Nat) :
    (MaxTotalFileSize < s →
      applyTemplateFinalize s r = .emitted r true ∧ templaterFinalize s = .failed) ∧
    (s ≤ MaxTotalFileSize →
      applyTemplateFinalize s r = .emitted s false ∧
      templaterFinalize s = .emitted s false) ∧
    adjustedCRF = 23 := by
  unfold applyTemplateFinalize templaterFinalize
  refine ⟨fun h => ?_, fun h => ?_, rfl⟩
  · rw [if_pos h, if_pos h]
    exact ⟨rfl, rfl⟩
  · rw [if_neg (not_lt.mpr h), if_neg (not_lt.mpr h)]
    exact ⟨rfl, rfl⟩

theorem template_final_size_spec_witness :
    MaxTotalFileSize < MaxTotalFileSize + 7 ∧
    applyTemplateFinalize (MaxTotalFileSize + 7) 5 = .emitted 5 true ∧
    templaterFinalize (MaxTotalFileSize + 7) = .failed :=
  ⟨by omega, ((template_final_size_spec (MaxTotalFileSize + 7) 5).1 (by omega)).1,
    ((template_final_size_spec (MaxTotalFileSize + 7) 5).1 (by omega)).2⟩


theorem normalPlan_frame_mk (sW sH b1 b2 : Nat) :
    (NormalPlan.mk sW sH b1 b2 (¬(sW = b1 ∧ sH = b2))).frame = (b1, b2) := by
  unfold NormalPlan.frame
  dsimp only
  split_ifs with hp
  · rfl
  · have hb := not_not.mp (fun hcon => hp (decide_eq_true hcon))
    rw [hb.1, hb.2]

theorem processNormalDims_frame (w h mW mH : Nat) :
    (processNormalDims w h mW mH).frame = orientedBox w h mW mH := by
  unfold processNormalDims
  dsimp only
  rw [normalPlan_frame_mk]

/-- Claim C5 counterexample: with a forced-portrait profile whose box is
1080×1920, a square 1000×1000 source reaches the normal path, is classified
as landscape, and the orientation swap yields a 1920×1080 frame, so the
output height is strictly less than its width. -/
theorem forcePortrait_square_source_landscape :
    (processForPlatform true 1000 1000 1080 1920).frame = (1920, 1080) ∧
    1080 < 1920 := by
  refine ⟨?_, by decide⟩
  have hnc : ¬((true : Bool) = true ∧ 1000 < 1000) := fun hc => absurd hc.2 (lt_irrefl _)
  unfold processForPlatform
  rw [if_neg hnc]
  show (processNormalDims 1000 1000 1080 1920).frame = (1920, 1080)
  rw [processNormalDims_frame]
  decide

/-- Claim C5 (amended): for a forced-portrait profile whose maximum box is
portrait (width < height), every fit of a non-square source yields a frame
with height ≥ width; square sources are classified as landscape, trigger the
orientation swap, and can yield a landscape frame. -/
theorem forcePortrait_nonsquare_portrait_frame (w h mW mH : Nat)
    (hbox : mW < mH) (hne : w ≠ h) :
    (processForPlatform true w h mW mH).frame.1
      ≤ (processForPlatform true w h mW mH).frame.2 := by
  rcases lt_or_gt_of_ne hne with hlt | hgt
  · have hnc : ¬((true : Bool) = true ∧ h < w) := fun hc => absurd hc.2 (Nat.lt_asymm hlt)
    unfold processForPlatform
    rw [if_neg hnc]
    show (processNormalDims w h mW mH).frame.1 ≤ (processNormalDims w h mW mH).frame.2
    rw [processNormalDims_frame]
    unfold orientedBox
    rw [if_pos (by rw [decide_eq_true hlt, decide_eq_true hbox])]
    exact hbox.le
  · unfold processForPlatform
    rw [if_pos ⟨rfl, hgt⟩]
    exact hbox.le

theorem forcePortrait_nonsquare_portrait_frame_witness :
    (1080 : Nat) < 1920 ∧ (3840 : Nat) ≠ 2160 ∧
    (processForPlatform true 3840 2160 1080 1920).frame.1
      ≤ (processForPlatform true 3840 2160 1080 1920).frame.2 :=
  ⟨by decide, by decide,
    forcePortrait_nonsquare_portrait_frame 3840 2160 1080 1920 (by decide) (by decide)⟩

/-- Claim C4 counterexample: for a 1920×1080 landscape source the crop width
is 1080·9/16 rounded down to 607, and 607:1080 is not exactly 9:16. -/
theorem forcePortrait_crop_aspect_not_exact :
    processForPlatform true 1920 1080 1080 1920
      = .cropPlan 607 1080 656 1080 1920 ∧
    607 * 16 ≠ 1080 * 9 := by decide

/-- Claim C4 (amended): for every forced-portrait profile and strictly
landscape source, the plan is always a centered crop (never a pad) with crop
width h·9/16 and x-offset (w − cropWidth)/2, both in integer division, scaled
to the platform box; the pre-scale aspect ratio is exactly 9:16 precisely
when 16 divides 9·h, as in scenario A where a 3840×2160 source is cropped to
1215×2160 and scaled to 1080×1920 with no padding. -/
theorem forcePortrait_crop_plan_spec (w h mW mH : Nat) (hl : h < w) :
    processForPlatform true w h mW mH
      = .cropPlan (h * 9 / 16) h ((w - h * 9 / 16) / 2) mW mH ∧
    (16 ∣ h * 9 → h * 9 / 16 * 16 = h * 9) ∧
    processForPlatform true 3840 2160 1080 1920
      = .cropPlan 1215 2160 1312 1080 1920 := by
  refine ⟨?_, fun hd => Nat.div_mul_cancel hd, by decide⟩
  unfold processForPlatform
  rw [if_pos ⟨rfl, hl⟩]

theorem forcePortrait_crop_plan_spec_witness :
    (2160 : Nat) < 3840 ∧
    processForPlatform true 3840 2160 1080 1920
      = .cropPlan (2160 * 9 / 16) 2160 ((3840 - 2160 * 9 / 16) / 2) 1080 1920 :=
  ⟨by decide, (forcePortrait_crop_plan_spec 3840 2160 1080 1920 (by decide)).1⟩


theorem goNat_fortyseven : goNat ((47 : ℚ) - 0) = 47 := by
  norm_num [goNat]
  decide

/-- Claim C8 counterexample: the internal splitter passes the 15-second
duration bound to every chunk, including the final one, so the last chunk of
a 47-second source is not open-ended there. -/
theorem splitter_final_chunk_has_t_bound :
    splitterChunks 47 0 15
      = .ok [⟨0, some 15⟩, ⟨15, some 15⟩, ⟨30, some 15⟩, ⟨45, some 15⟩] := by
  unfold splitterChunks
  rw [if_neg (by norm_num)]
  rw [goNat_fortyseven]
  have hn : splitNumChunks 47 15 = 4 := by decide
  rw [hn]
  simp [List.range_succ, ChunkSpec.mk.injEq]
  norm_num

/-- Claim C8 (amended): a 47-second source with 15-second chunks and no skip
yields exactly 4 chunks in both splitters, the first three bounded to 15
seconds; the final chunk carries no duration bound in `SplitVideo`
(pkg/videoprocessor) but is bounded to 15 seconds in the internal
`Splitter.Process`. -/
theorem split_47s_15s_chunk_plan :
    splitVideoChunks 47 0 15
      = .ok [⟨0, some 15⟩, ⟨15, some 15⟩, ⟨30, some 15⟩, ⟨45, none⟩] ∧
    splitterChunks 47 0 15
      = .ok [⟨0, some 15⟩, ⟨15, some 15⟩, ⟨30, some 15⟩, ⟨45, some 15⟩] := by
  constructor
  · unfold splitVideoChunks
    rw [if_neg (by norm_num)]
    rw [goNat_fortyseven]
    have hn : splitNumChunks 47 15 = 4 := by decide
    rw [hn]
    simp [List.range_succ, ChunkSpec.mk.injEq]
    norm_num
  · unfold splitterChunks
    rw [if_neg (by norm_num)]
    rw [goNat_fortyseven]
    have hn : splitNumChunks 47 15 = 4 := by decide
    rw [hn]
    simp [List.range_succ, ChunkSpec.mk.injEq]
    norm_num


theorem goNat_le_of_le {q : ℚ} {n : Nat} (h : q ≤ (n : ℚ)) : goNat q ≤ n := by
  unfold goNat
  refine Int.toNat_le.mpr ?_
  have h1 := Int.floor_le_floor h
  rwa [Int.floor_natCast] at h1

theorem orientedBox_le_max (w h mW mH : Nat) :
    (orientedBox w h mW mH).1 ≤ max mW mH ∧ (orientedBox w h mW mH).2 ≤ max mW mH := by
  unfold orientedBox
  dsimp only
  split_ifs <;> exact ⟨by simp, by simp⟩

theorem processorScaled_le_box (w h : Nat) (t : VideoDimensions)
    (hw : 0 < w) (hh : 0 < h) :
    (processorScaled w h t).1 ≤ (orientedBox w h t.width t.height).1 ∧
    (processorScaled w h t).2 ≤ (orientedBox w h t.width t.height).2 := by
  have hw0 : (w : ℚ) ≠ 0 := Nat.cast_ne_zero.mpr hw.ne'
  have hh0 : (h : ℚ) ≠ 0 := Nat.cast_ne_zero.mpr hh.ne'
  unfold processorScaled
  dsimp only
  constructor
  · refine Nat.le_trans (Nat.sub_le _ _) (goNat_le_of_le ?_)
    have hmin : processorScaleFactor w h t
        ≤ ((orientedBox w h t.width t.height).1 : ℚ) / (w : ℚ) := by
      unfold processorScaleFactor
      dsimp only
      exact min_le_left _ _
    calc (w : ℚ) * processorScaleFactor w h t
        ≤ (w : ℚ) * (((orientedBox w h t.width t.height).1 : ℚ) / (w : ℚ)) :=
          mul_le_mul_of_nonneg_left hmin (by positivity)
      _ = ((orientedBox w h t.width t.height).1 : ℚ) := by field_simp
  · refine Nat.le_trans (Nat.sub_le _ _) (goNat_le_of_le ?_)
    have hmin : processorScaleFactor w h t
        ≤ ((orientedBox w h t.width t.height).2 : ℚ) / (h : ℚ) := by
      unfold processorScaleFactor
      dsimp only
      exact min_le_right _ _
    calc (h : ℚ) * processorScaleFactor w h t
        ≤ (h : ℚ) * (((orientedBox w h t.width t.height).2 : ℚ) / (h : ℚ)) :=
          mul_le_mul_of_nonneg_left hmin (by positivity)
      _ = ((orientedBox w h t.width t.height).2 : ℚ) := by field_simp

theorem processorCalculateOptimalDimensions_even (w h : Nat) (t : VideoDimensions)
    (hw : 0 < w) (hh : 0 < h) :
    (processorCalculateOptimalDimensions w h t).width % 2 = 0 ∧
    (processorCalculateOptimalDimensions w h t).height % 2 = 0 := by
  have hs := processorScaled_le_box w h t hw hh
  have hb := orientedBox_le_max w h t.width t.height
  have h1 : ((processorScaled w h t).1 : ℚ) ≤ max (t.width : ℚ) (t.height : ℚ) := by
    rw [← Nat.cast_max]
    exact_mod_cast le_trans hs.1 hb.1
  have h2 : ((processorScaled w h t).2 : ℚ) ≤ max (t.width : ℚ) (t.height : ℚ) := by
    rw [← Nat.cast_max]
    exact_mod_cast le_trans hs.2 hb.2
  unfold processorCalculateOptimalDimensions
  dsimp only
  rw [if_neg (not_lt.mpr h1), if_neg (not_lt.mpr h2)]
  unfold processorScaled
  dsimp only
  constructor <;> omega

theorem ensureValidDimensions_even_ge_two (d : VideoDimensions) :
    (ensureValidDimensions d).width % 2 = 0 ∧ 2 ≤ (ensureValidDimensions d).width ∧
    (ensureValidDimensions d).height % 2 = 0 ∧ 2 ≤ (ensureValidDimensions d).height := by
  unfold ensureValidDimensions
  dsimp only
  refine ⟨?_, ?_, ?_, ?_⟩ <;> split_ifs <;> omega


/-- Claim C3 counterexample: `Processor.calculateOptimalDimensions` has no
floor at 2: a 1024×2 source fitted into an 8×8 box yields height 0. -/
theorem processorCalculateOptimalDimensions_height_zero :
    processorCalculateOptimalDimensions 1024 2 ⟨8, 8⟩ = ⟨8, 0⟩ ∧
    (processorCalculateOptimalDimensions 1024 2 ⟨8, 8⟩).height < 2 := by
  have hbox : orientedBox 1024 2 8 8 = (8, 8) := by decide
  have hsf : processorScaleFactor 1024 2 ⟨8, 8⟩ = 1 / 128 := by
    unfold processorScaleFactor
    dsimp only
    rw [hbox]
    rw [min_eq_left (by norm_num)]
    norm_num
  have hg1 : goNat (((1024 : ℕ) : ℚ) * (1 / 128)) = 8 := by
    norm_num [goNat]
    decide
  have hg2 : goNat (((2 : ℕ) : ℚ) * (1 / 128)) = 0 := by
    norm_num [goNat]
  have hscaled : processorScaled 1024 2 ⟨8, 8⟩ = (8, 0) := by
    unfold processorScaled
    dsimp only
    rw [hsf, hg1, hg2]
  have heq : processorCalculateOptimalDimensions 1024 2 ⟨8, 8⟩ = ⟨8, 0⟩ := by
    unfold processorCalculateOptimalDimensions
    dsimp only
    rw [hscaled]
    norm_num
  exact ⟨heq, by rw [heq]; decide⟩


/-- Claim C3 (amended): the videoprocessor fitter
(`calculateOptimalDimensions` through `ensureValidDimensions`) always yields
even dimensions ≥ 2, and when `optimizeVideo` emits a pad the padded frame
equals the target box exactly; `Processor.calculateOptimalDimensions`
(internal/ffmpeg) yields even dimensions for positive sources but has no
floor at 2. -/
theorem dimension_fitter_spec :
    (∀ w h t, (calculateOptimalDimensions w h t).width % 2 = 0 ∧
        2 ≤ (calculateOptimalDimensions w h t).width ∧
        (calculateOptimalDimensions w h t).height % 2 = 0 ∧
        2 ≤ (calculateOptimalDimensions w h t).height) ∧
    (∀ w h t, 0 < w → 0 < h →
        (processorCalculateOptimalDimensions w h t).width % 2 = 0 ∧
        (processorCalculateOptimalDimensions w h t).height % 2 = 0) ∧
    (∀ tW tH oW oH, optimizeVideoPadded tW tH oW oH = true →
        optimizeVideoFrame tW tH oW oH = (tW, tH)) := by
  refine ⟨fun w h t => ?_,
    fun w h t hw hh => processorCalculateOptimalDimensions_even w h t hw hh,
    fun tW tH oW oH hp => ?_⟩
  · unfold calculateOptimalDimensions
    exact ensureValidDimensions_even_ge_two _
  · unfold optimizeVideoFrame
    rw [if_pos hp]

theorem dimension_fitter_spec_witness :
    (0 : Nat) < 1024 ∧ (0 : Nat) < 2 ∧
    optimizeVideoPadded 8 8 8 2 = true ∧
    (calculateOptimalDimensions 1024 2 ⟨8, 8⟩).width % 2 = 0 ∧
    (processorCalculateOptimalDimensions 1024 2 ⟨8, 8⟩).width % 2 = 0 ∧
    optimizeVideoFrame 8 8 8 2 = (8, 8) :=
  ⟨by decide, by decide, by decide,
    (dimension_fitter_spec.1 1024 2 ⟨8, 8⟩).1,
    (dimension_fitter_spec.2.1 1024 2 ⟨8, 8⟩ (by decide) (by decide)).1,
    dimension_fitter_spec.2.2 8 8 8 2 (by decide)⟩


theorem dropWhile_eq_self_of_all_false (p : Char → Bool) :
    ∀ l : List Char, (∀ c ∈ l, p c = false) → l.dropWhile p = l
  | [], _ => rfl
  | c :: t, hl => by
    rw [List.dropWhile_cons]
    rw [if_neg (by simp [hl c (List.mem_cons_self c t)])]

theorem isDigit_not_isMk {c : Char} (hd : isDigitChar c = true) : isMkChar c = false := by
  unfold isMkChar
  apply decide_eq_false
  rintro (rfl | rfl) <;> exact absurd hd (by decide)

theorem digitsVal_some (s : List Char) (n : Nat) (h : digitsVal s = some n) :
    s ≠ [] ∧ s.all isDigitChar = true := by
  unfold digitsVal at h
  split_ifs at h with hc
  exact ⟨hc.1, hc.2⟩

theorem trimRightMk_digits_concat (ds : List Char)
    (hall : ds.all isDigitChar = true) : trimRightMk (ds ++ ['k']) = ds := by
  unfold trimRightMk
  rw [List.reverse_append]
  simp only [List.reverse_cons, List.reverse_nil, List.nil_append, List.singleton_append]
  rw [List.dropWhile_cons, if_pos (by decide : isMkChar 'k' = true)]
  rw [dropWhile_eq_self_of_all_false _ _ ?_, List.reverse_reverse]
  intro c hc
  exact isDigit_not_isMk (List.all_eq_true.mp hall c (List.mem_reverse.mp hc))

theorem goAtoi_digits (c : Char) (t : List Char) (n : Nat)
    (h : digitsVal (c :: t) = some n) : goAtoi (c :: t) = some (n : Int) := by
  obtain ⟨-, hall⟩ := digitsVal_some _ _ h
  have hc : isDigitChar c = true := List.all_eq_true.mp hall c (List.mem_cons_self c t)
  have hp : ¬(c = '+') := fun hceq => by subst hceq; exact absurd hc (by decide)
  have hm : ¬(c = '-') := fun hceq => by subst hceq; exact absurd hc (by decide)
  simp only [goAtoi]
  rw [if_neg hp, if_neg hm, h]
  rfl

theorem extractBitrateValue_k (ds : List Char) (n : Nat)
    (hds : digitsVal ds = some n) (hn : n < 1024) :
    extractBitrateValue (ds ++ ['k']) = 0 := by
  obtain ⟨hne, hall⟩ := digitsVal_some _ _ hds
  have htrim := trimRightMk_digits_concat ds hall
  obtain ⟨c, t, rfl⟩ : ∃ c t, ds = c :: t := by
    cases ds with
    | nil => exact absurd rfl hne
    | cons c t => exact ⟨c, t, rfl⟩
  have hatoi := goAtoi_digits c t n hds
  unfold extractBitrateValue
  rw [htrim, hatoi]
  dsimp only
  rw [List.getLast?_concat]
  rw [if_neg (by decide), if_pos rfl]
  have htd : Int.tdiv ((n : Nat) : Int) 1024 = ((n / 1024 : Nat) : Int) := rfl
  rw [htd, Nat.div_eq_of_lt hn]
  rfl

/-- Claim C9: a bitrate string of digits with a `k` suffix whose value is
below 1024 (such as the platform defaults `128k` and `192k`) makes
`extractBitrateValue` return 0 by integer division, so the derived platform
target bitrate is 0 bps; an unparsable numeric part yields the default 2. -/
theorem extractBitrateValue_small_k_spec (ds s : List Char) (n : Nat)
    (hds : digitsVal ds = some n) (hn : n < 1024)
    (hs : goAtoi (trimRightMk s) = none) :
    extractBitrateValue (ds ++ ['k']) = 0 ∧
    platformTargetBitrate (ds ++ ['k']) = 0 ∧
    extractBitrateValue s = 2 := by
  have h0 := extractBitrateValue_k ds n hds hn
  refine ⟨h0, ?_, ?_⟩
  · unfold platformTargetBitrate
    rw [h0]
    rfl
  · unfold extractBitrateValue
    rw [hs]

theorem extractBitrateValue_small_k_spec_witness :
    digitsVal ['1', '2', '8'] = some 128 ∧ (128 : Nat) < 1024 ∧
    goAtoi (trimRightMk ['a', 'b', 'c']) = none ∧
    extractBitrateValue ['1', '2', '8', 'k'] = 0 ∧
    platformTargetBitrate ['1', '2', '8', 'k'] = 0 ∧
    extractBitrateValue ['a', 'b', 'c'] = 2 := by
  have h := extractBitrateValue_small_k_spec ['1', '2', '8'] ['a', 'b', 'c'] 128
    (by decide) (by decide) (by decide)
  exact ⟨by decide, by decide, by decide, h.1, h.2.1, h.2.2⟩

end VideoSplitter
